import Mathlib

set_option maxHeartbeats 1000000

/-!
Shallow embedding of the MooveIt backend request/response safety layer:
the structured logger of internal/jsonlog, the envelope codec
(writeJSON / readJSON of cmd/api/main.go), the readInt query extractor,
the middleware chain of cmd/api/routes.go, and the supervised background
task launcher. Definitions are transcribed from the Go source; the two
environment reads that are nondeterministic at runtime (the formatted
wall-clock time and the stack dump of runtime.debug.Stack) are abstracted
as fixed strings.
-/

/-- Severity levels, mirroring the Level int8 iota constants of
internal/jsonlog: LevelInfo = 0, LevelInfoError = 1, LevelError = 2,
LevelFatal = 3, LevelOff = 4. -/
inductive Level
  | info
  | infoError
  | error
  | fatal
  | off
  deriving DecidableEq

/-- The numeric value of a severity, as in the Go int8 constants; used for
the minimum-level comparison and the stack-trace threshold. -/
def Level.toNat : Level → Nat
  | .info => 0
  | .infoError => 1
  | .error => 2
  | .fatal => 3
  | .off => 4

/-- Transcription of the Level.String method: note that LevelInfoError
renders as "ERROR" and LevelError renders as "ERROR+STACK"; the default
branch returns the empty string. -/
def Level.render : Level → String
  | .info => "INFO"
  | .infoError => "ERROR"
  | .error => "ERROR+STACK"
  | .fatal => "FATAL"
  | .off => ""

/-- Abstraction of runtime.debug.Stack in writeLog: at runtime it is a
textual dump of the current goroutine stack, always non-empty. -/
def debugStack : String := "goroutine 1 [running]:"

/-- Abstraction of the formatted time.Now value placed in the Time field
of every log entry; its concrete value is irrelevant to the claims. -/
def nowString : String := "01-Jan-26 00:00:00.000 PST"

/-- The anonymous log-entry struct marshalled by writeLog: level string,
time, message, optional properties, optional trace. -/
structure LogRecord where
  level : Level
  time : String
  message : String
  properties : List (String × String)
  trace : String
  deriving DecidableEq

/-- Construction of the log-entry struct inside writeLog: the Trace field
is filled with the stack dump exactly when the severity is at or above
LevelError, and is the empty string otherwise. -/
def mkRecord (level : Level) (message : String)
    (properties : List (String × String)) : LogRecord :=
  { level := level
    time := nowString
    message := message
    properties := properties
    trace := if Level.error.toNat ≤ level.toNat then debugStack else "" }

/-- Transcription of writeLog: if the severity of the entry is below the
minimum severity of the logger, nothing is emitted; otherwise exactly one
record is built and written. The returned list is the sequence of records
emitted by the call. -/
def writeLog (minLevel : Level) (level : Level) (message : String)
    (properties : List (String × String)) : List LogRecord :=
  if level.toNat < minLevel.toNat then []
  else [mkRecord level message properties]

/-- A serialized JSON field value: either a string or a nested string map
(used for the properties field). -/
inductive JVal
  | str (s : String)
  | obj (fields : List (String × String))
  deriving DecidableEq

/-- First-match lookup of a field in a serialized JSON object. -/
def findField : List (String × JVal) → String → Option JVal
  | [], _ => none
  | (k, v) :: t, key => if key = k then some v else findField t key

/-- Model of json.Marshal applied to the log-entry struct: the field order
of the Go struct, with the omitempty behaviour of the Properties map
(omitted when empty) and of the Trace string (omitted when empty).
Marshalling a struct of strings and string maps cannot fail, so the
plain-text fallback branch of writeLog is never taken. -/
def serializeRecord (record : LogRecord) : List (String × JVal) :=
  [("level", JVal.str record.level.render),
   ("time", JVal.str record.time),
   ("message", JVal.str record.message)]
  ++ (if record.properties.isEmpty then []
      else [("properties", JVal.obj record.properties)])
  ++ (if record.trace = "" then [] else [("trace", JVal.str record.trace)])

/-- The minimum severity of the process-wide logger, from the jsonlog init
function: New(os.Stdout, LevelInfo). -/
def globalMinLevel : Level := Level.info

namespace jsonlog

/-- Package-level Error helper: the formatted message gets the cross-mark
prefix and is written at LevelInfoError. The argument is the already
formatted Sprintf result. -/
def Error (formatted : String) : List LogRecord :=
  writeLog globalMinLevel Level.infoError ("❌ " ++ formatted) []

/-- Package-level ErrorWithProperties helper: writes the error text with
the cross-mark prefix at LevelError, with the given properties. -/
def ErrorWithProperties (errMsg : String)
    (properties : List (String × String)) : List LogRecord :=
  writeLog globalMinLevel Level.error ("❌ " ++ errMsg) properties

/-- Package-level InfoWithProperties helper: writes the message with the
thought-balloon prefix at LevelInfo, with the given properties. -/
def InfoWithProperties (message : String)
    (properties : List (String × String)) : List LogRecord :=
  writeLog globalMinLevel Level.info ("💭 " ++ message) properties

end jsonlog

/-- The request data the safety layer reads: method and URL. -/
structure Request where
  method : String
  url : String
  deriving DecidableEq

/-- The observable state of an http.ResponseWriter: response headers, the
status code once written, and the accumulated body bytes. -/
structure RespWriter where
  headers : List (String × String)
  status : Option Nat
  body : String
  deriving DecidableEq

/-- A fresh response writer: no headers, no status written, empty body. -/
def RespWriter.empty : RespWriter := ⟨[], none, ""⟩

/-- First-match lookup in a header list; the header map is always read
through this, so consing a pair onto the front is a map update. -/
def getHeader : List (String × String) → String → Option String
  | [], _ => none
  | (k, v) :: t, key => if key = k then some v else getHeader t key

/-- Header().Set and the direct header-map assignment in writeJSON: binds
the key to the value (first match wins on lookup). -/
def RespWriter.setHeader (w : RespWriter) (k v : String) : RespWriter :=
  { w with headers := (k, v) :: w.headers }

/-- WriteHeader: writes the status line; net/http ignores any call after
the status has already been written. -/
def RespWriter.writeHeader (w : RespWriter) (s : Nat) : RespWriter :=
  match w.status with
  | some _ => w
  | none => { w with status := some s }

/-- Write: appends bytes to the response body. -/
def RespWriter.write (w : RespWriter) (b : String) : RespWriter :=
  { w with body := w.body ++ b }

/-- The header-merging loop of writeJSON: for each provided key the header
map entry is set to the provided value. -/
def mergeHeaders (w : RespWriter) (hs : List (String × String)) : RespWriter :=
  hs.foldl (fun w p => w.setHeader p.1 p.2) w

/-- Transcription of writeJSON. The json.Marshal outcome on the payload is
passed in as an Except value (the marshaller itself is outside this layer).
On marshal failure the error is returned with the writer untouched; on
success a trailing newline is appended, the provided headers are merged,
Content-Type is set to application/json, the status is written, and the
body is written. -/
def writeJSON (w : RespWriter) (status : Nat)
    (marshalled : Except String String)
    (headers : List (String × String)) : RespWriter × Option String :=
  match marshalled with
  | .error e => (w, some e)
  | .ok js =>
    let js := js ++ "\n"
    let w := mergeHeaders w headers
    let w := w.setHeader "Content-Type" "application/json"
    let w := w.writeHeader status
    let w := w.write js
    (w, none)

/-- The fixed, non-leaking message of serverErrorResponse. -/
def serverErrorMessage : String :=
  "The server encountered a problem and could not process your request"

/-- Model of json.Marshal on the one-key envelope built by
serverErrorResponse; the message contains no characters needing escapes,
and marshalling a string map never fails. -/
def marshalErrorEnvelope (msg : String) : Except String String :=
  Except.ok ("\x7b\"error\":\"" ++ msg ++ "\"\x7d")

/-- The joint observable state of one request execution: the response
writer and the sequence of log records emitted so far. -/
structure ServerState where
  response : RespWriter
  logs : List LogRecord
  deriving DecidableEq

/-- The state at the start of a request: fresh writer, no log output. -/
def ServerState.init : ServerState := ⟨RespWriter.empty, []⟩

/-- Transcription of serverErrorResponse: log the failure at LevelError
with the request method and URL as properties, then send the fixed 500
envelope through writeJSON; if writeJSON itself fails (it cannot here,
since the envelope marshals), the error is logged via the Error helper. -/
def serverErrorResponse (r : Request) (errMsg : String)
    (w : RespWriter) (logs : List LogRecord) : RespWriter × List LogRecord :=
  let logs := logs ++ jsonlog.ErrorWithProperties errMsg
    [("request_method", r.method), ("request_url", r.url)]
  match writeJSON w 500 (marshalErrorEnvelope serverErrorMessage) [] with
  | (w, none) => (w, logs)
  | (w, some e) => (w, logs ++ jsonlog.Error e)

/-- A handler: given the request and the current state, produces the new
state together with the panic value, if execution panicked. The panic
value is carried as the string that the fmt.Errorf verb %s renders it to
in recoverPanic. -/
def Handler := Request → ServerState → ServerState × Option String

/-- Transcription of the recoverPanic middleware: run the next handler;
if it panicked, set the Connection close header on the response and emit
the generic 500 through serverErrorResponse; the panic never escapes. -/
def recoverPanic (next : Handler) : Handler := fun r s =>
  match next r s with
  | (s, none) => (s, none)
  | (s, some p) =>
    let w := s.response.setHeader "Connection" "close"
    let (w, logs) := serverErrorResponse r p w s.logs
    (⟨w, logs⟩, none)

/-- Transcription of the logRequest middleware: log the request method and
URL at INFO severity, then delegate to the next handler. -/
def logRequest (next : Handler) : Handler := fun r s =>
  next r { s with
    logs := s.logs ++ jsonlog.InfoWithProperties "request received"
      [("method", r.method), ("url", r.url)] }

/-- The two middleware of the routes function, as syntax, so that the
composition order is itself an object of the model. -/
inductive Mw
  | recoverMw
  | logReqMw
  deriving DecidableEq

/-- Semantics of one middleware layer. -/
def applyMw : Mw → Handler → Handler
  | .recoverMw => recoverPanic
  | .logReqMw => logRequest

/-- The middleware chain built by routes in cmd/api/routes.go, listed
outermost first: the function returns recoverPanic(logRequest(router)). -/
def routesMiddleware : List Mw := [Mw.recoverMw, Mw.logReqMw]

/-- The composed handler returned by routes, over an abstract router. -/
def routes (router : Handler) : Handler :=
  routesMiddleware.foldr applyMw router

/-- The decode-failure cases distinguished by the error switch of readJSON,
one constructor per branch of the Go type switch. The unknownField payload
is the text after the fixed prefix of the decoder error, which keeps the
double quotes around the field name; the invalidUnmarshal payload is the
text of the json.InvalidUnmarshalError. -/
inductive DecodeError
  | syntaxError (offset : Nat)
  | unexpectedEOF
  | typeError (field : String) (offset : Nat)
  | eofEmpty
  | unknownField (quotedName : String)
  | maxBytes (limit : Nat)
  | invalidUnmarshal (msg : String)
  | other (msg : String)
  deriving DecidableEq

/-- The outcome of a readJSON call: a panic (carrying the panicked error
text), a returned error message, or a nil return. -/
inductive ReadResult
  | panicked (msg : String)
  | err (msg : String)
  | ok
  deriving DecidableEq

/-- The request body size limit installed by readJSON via
http.MaxBytesReader: maxBytes := 1_048_576. -/
def maxBytes : Nat := 1048576

/-- The error switch of readJSON, mapping each decode-failure cause to the
user-facing message, except the invalid-unmarshal case which panics. The
typeError branch mirrors the inner field check of the Go switch. -/
def decodeErrorMessage : DecodeError → ReadResult
  | .syntaxError offset =>
    .err ("body contains badly-formed JSON (at character " ++ toString offset ++ ")")
  | .unexpectedEOF => .err "body contains badly-formed JSON"
  | .typeError field offset =>
    if field = "" then
      .err ("body contains incorrect JSON type (at character " ++ toString offset ++ ")")
    else
      .err ("body contains incorrect JSON type for field \"" ++ field ++ "\"")
  | .eofEmpty => .err "body must not be empty"
  | .unknownField quotedName => .err ("body contains unknown key " ++ quotedName)
  | .maxBytes limit =>
    .err ("body must not be larger than " ++ toString limit ++ " bytes")
  | .invalidUnmarshal msg => .panicked msg
  | .other msg => .err msg

/-- Transcription of readJSON over the outcome of the two decoder calls:
the first Decode either fails with one of the distinguished causes or
succeeds; after a successful first decode, a second Decode into an empty
struct is made, and anything other than an io.EOF result yields the
single-JSON-value error. -/
def readJSON (firstDecode : Option DecodeError) (secondIsEOF : Bool) : ReadResult :=
  match firstDecode with
  | some e => decodeErrorMessage e
  | none =>
    if secondIsEOF then .ok
    else .err "body must only contain a single JSON value"

/-- url.Values.Get: the first value bound to the key in the query string,
or the empty string when the key is absent. -/
def getQuery : List (String × String) → String → String
  | [], _ => ""
  | (k, v) :: t, key => if key = k then v else getQuery t key

/-- Modelled from the spec: the internal/validator package is not under
src/. Section 3 of the spec describes the Validator as a mapping from
field name to the first error message recorded for that field, with later
messages for an already-failed field dropped. -/
structure Validator where
  errors : List (String × String)
  deriving DecidableEq

/-- Whether the association list binds the key. -/
def hasKey : List (String × String) → String → Bool
  | [], _ => false
  | (k, _) :: t, key => if key = k then true else hasKey t key

/-- Modelled from the spec: AddError records the message under the key
only when the key has no recorded message yet. -/
def Validator.addError (v : Validator) (key message : String) : Validator :=
  if hasKey v.errors key then v else ⟨v.errors ++ [(key, message)]⟩

/-- The magnitude of a run of decimal digit characters. -/
def digitsToNat (ds : List Char) : Nat :=
  ds.foldl (fun acc c => acc * 10 + (c.toNat - 48)) 0

/-- Model of strconv.Atoi: an optional single sign, then one or more
decimal digits and nothing else; values outside the int64 range fail with
a range error, which readInt treats like any other failure. -/
def atoi (s : String) : Option Int :=
  let cs := s.toList
  let signed : Bool × List Char :=
    match cs with
    | '-' :: rest => (true, rest)
    | '+' :: rest => (false, rest)
    | _ => (false, cs)
  if signed.2.isEmpty then none
  else if signed.2.all Char.isDigit then
    let mag : Int := Int.ofNat (digitsToNat signed.2)
    let n : Int := if signed.1 then -mag else mag
    if -(2 ^ 63) ≤ n ∧ n ≤ 2 ^ 63 - 1 then some n else none
  else none

/-- Transcription of readInt: the default on an absent or empty value; on
a failed conversion, the fixed message is recorded in the validator under
the key and the default is returned; otherwise the converted value is
returned with the validator untouched. -/
def readInt (qs : List (String × String)) (key : String)
    (defaultValue : Int) (v : Validator) : Int × Validator :=
  let str := getQuery qs key
  if str = "" then (defaultValue, v)
  else
    match atoi str with
    | none => (defaultValue, v.addError key "must be an integer value")
    | some n => (n, v)

/-- Transcription of the background helper. The task outcome is either a
normal return or a panic carrying the text the %s verb renders it to. The
WaitGroup counter is incremented before the goroutine starts; inside the
goroutine a deferred function decrements it (itself deferred, so it runs
last) and recovers any panic, logging it through the Error helper. The
result is the final counter, the emitted log records appended to the log,
and the panic (if any) escaping the goroutine - none in every case, since
recover catches it. -/
def background (task : Except String Unit) (wg : Nat)
    (logs : List LogRecord) : (Nat × List LogRecord) × Option String :=
  let wgAdded := wg + 1
  match task with
  | .ok _ => ((wgAdded - 1, logs), none)
  | .error p => ((wgAdded - 1, logs ++ jsonlog.Error p), none)

theorem setHeader_status (w : RespWriter) (k v : String) :
    (w.setHeader k v).status = w.status := rfl

theorem setHeader_body (w : RespWriter) (k v : String) :
    (w.setHeader k v).body = w.body := rfl

theorem writeHeader_body (w : RespWriter) (s : Nat) :
    (w.writeHeader s).body = w.body := by
  cases w with
  | mk hd st bd => cases st <;> rfl

theorem writeHeader_headers (w : RespWriter) (s : Nat) :
    (w.writeHeader s).headers = w.headers := by
  cases w with
  | mk hd st bd => cases st <;> rfl

theorem writeHeader_status_none (w : RespWriter) (s : Nat)
    (h : w.status = none) : (w.writeHeader s).status = some s := by
  cases w with
  | mk hd st bd =>
    cases st with
    | none => rfl
    | some v => simp at h

theorem mergeHeaders_cons (w : RespWriter) (p : String × String)
    (hs : List (String × String)) :
    mergeHeaders w (p :: hs) = mergeHeaders (w.setHeader p.1 p.2) hs := rfl

theorem mergeHeaders_status (hs : List (String × String)) :
    ∀ w : RespWriter, (mergeHeaders w hs).status = w.status := by
  induction hs with
  | nil => intro w; rfl
  | cons p t ih =>
    intro w
    rw [mergeHeaders_cons, ih (w.setHeader p.1 p.2), setHeader_status]

theorem mergeHeaders_body (hs : List (String × String)) :
    ∀ w : RespWriter, (mergeHeaders w hs).body = w.body := by
  induction hs with
  | nil => intro w; rfl
  | cons p t ih =>
    intro w
    rw [mergeHeaders_cons, ih (w.setHeader p.1 p.2), setHeader_body]

theorem mergeHeaders_getHeader_skip (hs : List (String × String)) (key : String) :
    ∀ w : RespWriter, (∀ p ∈ hs, p.1 ≠ key) →
    getHeader (mergeHeaders w hs).headers key = getHeader w.headers key := by
  induction hs with
  | nil => intro w _; rfl
  | cons p t ih =>
    intro w hmem
    rw [mergeHeaders_cons, ih (w.setHeader p.1 p.2) (fun q hq => hmem q (by simp [hq]))]
    have hp : p.1 ≠ key := hmem p (by simp)
    have hk : ¬ key = p.1 := fun hcon => hp hcon.symm
    show getHeader ((p.1, p.2) :: w.headers) key = getHeader w.headers key
    simp [getHeader, hk]

theorem mergeHeaders_getHeader_mem (hs : List (String × String)) (key val : String) :
    ∀ w : RespWriter, (hs.map Prod.fst).Nodup → getHeader hs key = some val →
    getHeader (mergeHeaders w hs).headers key = some val := by
  induction hs with
  | nil => intro w _ hfind; simp [getHeader] at hfind
  | cons p t ih =>
    intro w hnodup hfind
    obtain ⟨k, v⟩ := p
    rw [List.map_cons, List.nodup_cons] at hnodup
    rw [mergeHeaders_cons]
    by_cases hk : key = k
    · subst hk
      have hv : v = val := by simpa [getHeader] using hfind
      subst hv
      rw [mergeHeaders_getHeader_skip t key (RespWriter.setHeader w key v)
        (fun q hq hcon => hnodup.1 (List.mem_map.mpr ⟨q, hq, hcon⟩))]
      show getHeader ((key, v) :: w.headers) key = some v
      simp [getHeader]
    · have hfind2 : getHeader t key = some val := by
        simpa [getHeader, hk] using hfind
      exact ih (RespWriter.setHeader w k v) hnodup.2 hfind2

theorem empty_string_append (s : String) : "" ++ s = s := by
  cases s
  rfl

theorem findField_serialize_trace (record : LogRecord) :
    findField (serializeRecord record) "trace" =
      if record.trace = "" then none else some (JVal.str record.trace) := by
  by_cases htr : record.trace = "" <;>
    cases hp : record.properties.isEmpty <;>
      simp [serializeRecord, findField, htr, hp]

/-- C1: if the handler wrapped by recoverPanic panics mid-execution, before
touching the response, the composed chain swallows the panic and produces a
response whose status is written exactly once as 500, whose body is the
fixed error envelope (with trailing newline), with the Connection close
header set, and appends exactly one log record, at LevelError, whose
properties carry the request method and URL. -/
theorem recoverPanic_panicking_handler (h : Handler) (r : Request)
    (s₁ : ServerState) (p : String)
    (hrun : h r ServerState.init = (s₁, some p))
    (hresp : s₁.response = RespWriter.empty) :
    recoverPanic h r ServerState.init =
      (⟨⟨[("Content-Type", "application/json"), ("Connection", "close")],
         some 500,
         "\x7b\"error\":\"The server encountered a problem and could not process your request\"\x7d\n"⟩,
        s₁.logs ++ [⟨Level.error, nowString, "❌ " ++ p,
          [("request_method", r.method), ("request_url", r.url)], debugStack⟩]⟩,
       none)
    ∧ ((recoverPanic h r ServerState.init).1.logs.filter
          (fun lr => decide (Level.error.toNat ≤ lr.level.toNat))).length
        = ((s₁.logs.filter
            (fun lr => decide (Level.error.toNat ≤ lr.level.toNat))).length) + 1 := by
  obtain ⟨resp, lgs⟩ := s₁
  have hresp2 : resp = RespWriter.empty := hresp
  subst hresp2
  have hmain : recoverPanic h r ServerState.init =
      (⟨⟨[("Content-Type", "application/json"), ("Connection", "close")],
         some 500,
         "\x7b\"error\":\"The server encountered a problem and could not process your request\"\x7d\n"⟩,
        lgs ++ [⟨Level.error, nowString, "❌ " ++ p,
          [("request_method", r.method), ("request_url", r.url)], debugStack⟩]⟩,
       none) := by
    unfold recoverPanic
    rw [hrun]
    rfl
  refine ⟨hmain, ?_⟩
  rw [hmain]
  simp [List.filter_append, Level.toNat]

/-- Witness for C1 at a concrete immediately panicking handler. -/
theorem recoverPanic_panicking_handler_witness :
    (recoverPanic (fun _ s => (s, some "boom")) ⟨"GET", "/api/cows"⟩ ServerState.init).2 = none
    ∧ (recoverPanic (fun _ s => (s, some "boom")) ⟨"GET", "/api/cows"⟩
        ServerState.init).1.response.status = some 500
    ∧ getHeader (recoverPanic (fun _ s => (s, some "boom")) ⟨"GET", "/api/cows"⟩
        ServerState.init).1.response.headers "Connection" = some "close" := by
  have h := recoverPanic_panicking_handler (fun _ s => (s, some "boom"))
    ⟨"GET", "/api/cows"⟩ ServerState.init "boom" rfl rfl
  rw [h.1]
  exact ⟨rfl, rfl, by decide⟩

/-- C2 counterexample: the middleware chain of routes does not place
request logging outermost; the outermost layer is the panic recovery
middleware, so the chain differs from the logging-outermost order the
claim states. -/
theorem routes_logging_not_outermost :
    routesMiddleware ≠ [Mw.logReqMw, Mw.recoverMw]
    ∧ routesMiddleware.head? = some Mw.recoverMw := by
  decide

/-- C2 amended: in the handler chain built by routes, the panic-isolating
middleware is the outermost layer, wrapping the request-logging middleware,
which wraps route dispatch. -/
theorem routes_recoverPanic_outermost (router : Handler) :
    routesMiddleware = [Mw.recoverMw, Mw.logReqMw]
    ∧ routes router = recoverPanic (logRequest router) :=
  ⟨rfl, rfl⟩

/-- C3 counterexample: for the concrete task that panics with the text
boom, the background launcher writes its one log record at severity
LevelInfoError, so no record at or above the LevelError severity (the
severity named ERROR in the data model of the spec, the one that attaches
a stack trace) is emitted. -/
theorem background_log_severity_below_error :
    (background (Except.error "boom") 0 []).1.2 =
      [⟨Level.infoError, nowString, "❌ boom", [], ""⟩]
    ∧ (background (Except.error "boom") 0 []).1.2.filter
        (fun lr => decide (Level.error.toNat ≤ lr.level.toNat)) = [] := by
  constructor <;> rfl

/-- C3 amended: a panic inside a background task is caught and logged at
severity LevelInfoError, whose rendered level string is ERROR but which
lies strictly below the LevelError severity that attaches a stack trace;
the panic never escapes the launcher, the process is not terminated, and
the WaitGroup counter is decremented exactly once whether the task panics
or returns normally. -/
theorem background_catches_and_decrements (task : Except String Unit)
    (wg : Nat) (logs : List LogRecord) (p : String) :
    (background task wg logs).2 = none
    ∧ (background task wg logs).1.1 = wg
    ∧ background (Except.error p) wg logs =
        ((wg, logs ++ [⟨Level.infoError, nowString, "❌ " ++ p, [], ""⟩]), none)
    ∧ background (Except.ok ()) wg logs = ((wg, logs), none)
    ∧ Level.infoError.render = "ERROR"
    ∧ Level.infoError.toNat < Level.error.toNat := by
  refine ⟨?_, ?_, rfl, rfl, rfl, by decide⟩ <;> cases task <;> rfl

/-- C4: a json.InvalidUnmarshalError from the first decode makes readJSON
panic with that error; it is never surfaced as a returned error value and
never as a nil return. -/
theorem readJSON_invalid_unmarshal_panics (msg m : String) (b : Bool) :
    readJSON (some (DecodeError.invalidUnmarshal msg)) b = ReadResult.panicked msg
    ∧ readJSON (some (DecodeError.invalidUnmarshal msg)) b ≠ ReadResult.err m
    ∧ readJSON (some (DecodeError.invalidUnmarshal msg)) b ≠ ReadResult.ok := by
  refine ⟨rfl, ?_, ?_⟩ <;> simp [readJSON, decodeErrorMessage]

/-- C5: after a successful first decode, readJSON returns nil exactly when
the second decode reports end of input, and returns the single-JSON-value
error exactly when anything else follows. -/
theorem readJSON_single_value_check (b : Bool) :
    (readJSON none b = ReadResult.err "body must only contain a single JSON value"
      ↔ b = false)
    ∧ (readJSON none b = ReadResult.ok ↔ b = true) := by
  cases b <;> simp [readJSON]

/-- C8: the configured size limit is 1048576 bytes, and a max-bytes decode
failure carrying limit L yields the message with L interpolated. -/
theorem readJSON_size_limit_message (L : Nat) (b : Bool) :
    maxBytes = 1048576
    ∧ readJSON (some (DecodeError.maxBytes L)) b =
        ReadResult.err ("body must not be larger than " ++ toString L ++ " bytes")
    ∧ readJSON (some (DecodeError.maxBytes maxBytes)) b =
        ReadResult.err "body must not be larger than 1048576 bytes" := by
  refine ⟨rfl, rfl, ?_⟩
  rfl

/-- C6: on serialization failure writeJSON returns the error with the
response writer untouched; on success with a fresh writer it returns nil,
the body is the serialized payload followed by a trailing newline, the
status is written, Content-Type is set to application/json, and every
provided header (other than Content-Type, which writeJSON overrides) is
present with its value. -/
theorem writeJSON_contract (w : RespWriter) (st : Nat) (e js : String)
    (hs : List (String × String)) (hnodup : (hs.map Prod.fst).Nodup) :
    writeJSON w st (Except.error e) hs = (w, some e)
    ∧ (writeJSON RespWriter.empty st (Except.ok js) hs).2 = none
    ∧ (writeJSON RespWriter.empty st (Except.ok js) hs).1.body = js ++ "\n"
    ∧ (writeJSON RespWriter.empty st (Except.ok js) hs).1.status = some st
    ∧ getHeader (writeJSON RespWriter.empty st (Except.ok js) hs).1.headers
        "Content-Type" = some "application/json"
    ∧ ∀ k v, k ≠ "Content-Type" → getHeader hs k = some v →
        getHeader (writeJSON RespWriter.empty st (Except.ok js) hs).1.headers k =
          some v := by
  have hok : writeJSON RespWriter.empty st (Except.ok js) hs =
      ((((mergeHeaders RespWriter.empty hs).setHeader
          "Content-Type" "application/json").writeHeader st).write (js ++ "\n"),
        none) := rfl
  have hst : ((mergeHeaders RespWriter.empty hs).setHeader
      "Content-Type" "application/json").status = none := by
    rw [setHeader_status, mergeHeaders_status]
    rfl
  refine ⟨rfl, by rw [hok], ?_, ?_, ?_, ?_⟩
  · rw [hok]
    show (((mergeHeaders RespWriter.empty hs).setHeader
        "Content-Type" "application/json").writeHeader st).body ++ (js ++ "\n") =
      js ++ "\n"
    rw [writeHeader_body, setHeader_body, mergeHeaders_body]
    exact empty_string_append (js ++ "\n")
  · rw [hok]
    show (RespWriter.writeHeader _ st).status = some st
    exact writeHeader_status_none _ st hst
  · rw [hok]
    show getHeader ((RespWriter.writeHeader _ st).headers) "Content-Type" =
      some "application/json"
    rw [writeHeader_headers]
    show getHeader (("Content-Type", "application/json") ::
      (mergeHeaders RespWriter.empty hs).headers) "Content-Type" =
        some "application/json"
    simp [getHeader]
  · intro k v hk hfind
    rw [hok]
    show getHeader ((RespWriter.writeHeader _ st).headers) k = some v
    rw [writeHeader_headers]
    show getHeader (("Content-Type", "application/json") ::
      (mergeHeaders RespWriter.empty hs).headers) k = some v
    have hne : ¬ k = "Content-Type" := hk
    simp only [getHeader, if_neg hne]
    exact mergeHeaders_getHeader_mem hs k v RespWriter.empty hnodup hfind

/-- Witness for C6 at concrete inputs, including one custom header. -/
theorem writeJSON_contract_witness :
    writeJSON ⟨[("A", "b")], some 200, "x"⟩ 422 (Except.error "marshal failed")
        [("X-Req", "1")] = (⟨[("A", "b")], some 200, "x"⟩, some "marshal failed")
    ∧ getHeader (writeJSON RespWriter.empty 422 (Except.ok "[1]")
        [("X-Req", "1")]).1.headers "X-Req" = some "1"
    ∧ (writeJSON RespWriter.empty 422 (Except.ok "[1]")
        [("X-Req", "1")]).1.status = some 422 := by
  have h := writeJSON_contract ⟨[("A", "b")], some 200, "x"⟩ 422 "marshal failed"
    "[1]" [("X-Req", "1")] (by decide)
  exact ⟨h.1, h.2.2.2.2.2 "X-Req" "1" (by decide) (by decide), h.2.2.2.1⟩

/-- C7: whenever a log call passes the minimum-severity filter, exactly one
record is emitted; its serialized form contains a trace field holding the
non-empty stack text exactly when the severity is at or above LevelError,
and contains no trace field for severities below LevelError. -/
theorem writeLog_trace_iff_error (minLevel level : Level) (msg : String)
    (props : List (String × String))
    (h : ¬ level.toNat < minLevel.toNat) :
    writeLog minLevel level msg props = [mkRecord level msg props]
    ∧ (Level.error.toNat ≤ level.toNat →
        findField (serializeRecord (mkRecord level msg props)) "trace" =
          some (JVal.str debugStack) ∧ debugStack ≠ "")
    ∧ (level.toNat < Level.error.toNat →
        findField (serializeRecord (mkRecord level msg props)) "trace" = none) := by
  refine ⟨by simp [writeLog, h], ?_, ?_⟩
  · intro hge
    have htr : (mkRecord level msg props).trace = debugStack := by
      simp [mkRecord, hge]
    rw [findField_serialize_trace, htr]
    refine ⟨?_, by decide⟩
    simp [debugStack]
  · intro hlt
    have htr : (mkRecord level msg props).trace = "" := by
      simp [mkRecord, Nat.not_le.mpr hlt]
    rw [findField_serialize_trace, htr]
    simp

/-- Witness for C7: an ERROR-severity record carries the trace field, an
INFO_ERROR-severity record does not; both pass the INFO minimum. -/
theorem writeLog_trace_iff_error_witness :
    writeLog Level.info Level.error "m" [] = [mkRecord Level.error "m" []]
    ∧ findField (serializeRecord (mkRecord Level.error "m" [])) "trace" =
        some (JVal.str debugStack)
    ∧ findField (serializeRecord (mkRecord Level.infoError "m" [])) "trace" =
        none := by
  have h1 := writeLog_trace_iff_error Level.info Level.error "m" [] (by decide)
  have h2 := writeLog_trace_iff_error Level.info Level.infoError "m" [] (by decide)
  exact ⟨h1.1, (h1.2.1 (by decide)).1, h2.2.2 (by decide)⟩

/-- C9: readInt returns the default when the key is absent or its value is
empty; on a value that fails integer conversion it returns the default and
records the fixed message under the key through the validator AddError
operation; on a successful conversion it returns the parsed integer with
the validator untouched. -/
theorem readInt_contract (qs : List (String × String)) (key : String)
    (d : Int) (v : Validator) (n : Int) :
    (getQuery qs key = "" → readInt qs key d v = (d, v))
    ∧ (getQuery qs key ≠ "" → atoi (getQuery qs key) = none →
        readInt qs key d v = (d, v.addError key "must be an integer value"))
    ∧ (getQuery qs key ≠ "" → atoi (getQuery qs key) = some n →
        readInt qs key d v = (n, v)) := by
  refine ⟨?_, ?_, ?_⟩
  · intro h
    simp [readInt, h]
  · intro hne hatoi
    simp [readInt, hne, hatoi]
  · intro hne hatoi
    simp [readInt, hne, hatoi]

/-- Witness for C9: the spec example query n=abc records the message and
returns the default; n=42 parses; an empty query returns the default. -/
theorem readInt_contract_witness :
    readInt [("n", "abc")] "n" 5 ⟨[]⟩ =
      (5, ⟨[("n", "must be an integer value")]⟩)
    ∧ readInt [("n", "42")] "n" 5 ⟨[]⟩ = (42, ⟨[]⟩)
    ∧ readInt [] "n" 5 ⟨[]⟩ = (5, ⟨[]⟩) := by
  refine ⟨?_, ?_, ?_⟩
  · exact ((readInt_contract [("n", "abc")] "n" 5 ⟨[]⟩ 0).2.1
      (by decide) (by decide)).trans (by decide)
  · exact (readInt_contract [("n", "42")] "n" 5 ⟨[]⟩ 42).2.2
      (by decide) (by decide)
  · exact (readInt_contract [] "n" 5 ⟨[]⟩ 0).1 (by decide)

/-- C10: the package-level Error helper writes at LevelInfoError, strictly
below LevelError, so its records render the level string ERROR yet carry
no trace field in the serialized output; ErrorWithProperties writes at
LevelError, rendered ERROR+STACK, and its records carry the non-empty
stack text in the trace field. -/
theorem error_helpers_severity (msg e : String)
    (props : List (String × String)) :
    jsonlog.Error msg = [mkRecord Level.infoError ("❌ " ++ msg) []]
    ∧ Level.infoError.toNat < Level.error.toNat
    ∧ Level.infoError.render = "ERROR"
    ∧ (mkRecord Level.infoError ("❌ " ++ msg) []).trace = ""
    ∧ findField (serializeRecord (mkRecord Level.infoError ("❌ " ++ msg) []))
        "trace" = none
    ∧ jsonlog.ErrorWithProperties e props =
        [mkRecord Level.error ("❌ " ++ e) props]
    ∧ Level.error.render = "ERROR+STACK"
    ∧ findField (serializeRecord (mkRecord Level.error ("❌ " ++ e) props))
        "trace" = some (JVal.str debugStack)
    ∧ debugStack ≠ "" := by
  refine ⟨rfl, by decide, rfl, rfl, ?_, rfl, rfl, ?_, by decide⟩
  · rw [findField_serialize_trace]
    rfl
  · rw [findField_serialize_trace]
    have htr : (mkRecord Level.error ("❌ " ++ e) props).trace = debugStack := rfl
    rw [htr]
    simp [debugStack]
